import Mathlib

/-!
Verification of the progressive page-rasterization engine exercised by
`core/fpdfapi/render/fpdf_progressive_render_embeddertest.cpp`.

The repository sources hold only the embedder test of the engine; the engine
itself (the `FPDF_RenderPageBitmap_Start` / `FPDF_RenderPage_Continue` /
`FPDF_RenderPage_Close` state machine, the forced color-scheme policy and the
form-overlay pass) is an external binary here.  Those parts are therefore
modelled from the specification; each such definition carries a doc comment
starting with `Modelled from the spec:`.  The test-harness helpers
(`StartRenderPageWithFlags`, `StartRenderPageWithColorSchemeAndBackground`)
are embedded directly from the source file.
-/

namespace PdfProgressive

/-- 32-bit ARGB color value, as `FX_ARGB` / `FPDF_DWORD` in the source. -/
abbrev Color := Nat

/-- Constant `kBlack` of the test file. -/
def kBlack : Color := 0xFF000000

/-- Constant `kBlue` of the test file. -/
def kBlue : Color := 0xFF0000FF

/-- Constant `kGreen` of the test file. -/
def kGreen : Color := 0xFF00FF00

/-- Constant `kRed` of the test file. -/
def kRed : Color := 0xFFFF0000

/-- Constant `kWhite` of the test file. -/
def kWhite : Color := 0xFFFFFFFF

/-- Blend mode of a page object: the pixel-compositing function used when
painting the object over existing buffer content (spec glossary). -/
inductive BlendMode
  | normal
  | multiply
deriving DecidableEq, Repr

/-- Type tag of a page object (spec section 3, PageObjectView). -/
inductive ObjKind
  | path
  | text
  | image
  | shading
deriving DecidableEq, Repr

/-- Read-only view of one drawable page object: type tag, whether it belongs
to an annotation appearance stream, its native paint attributes (optional
fill color, optional stroke color) and its blend mode (spec section 3). -/
structure PageObject where
  kind : ObjKind
  annot : Bool
  fillColor : Option Color
  strokeColor : Option Color
  blend : BlendMode
deriving DecidableEq, Repr

/-- Four role-keyed override colors, as `FPDF_COLORSCHEME` in the public API:
path-fill, path-stroke, text-fill, text-stroke. -/
structure ColorScheme where
  path_fill_color : Color
  path_stroke_color : Color
  text_fill_color : Color
  text_stroke_color : Color
deriving DecidableEq, Repr

/-- Page as seen by the harness: device-space width and height (doubles in
the C API, modelled as rationals), the `FPDFPage_HasTransparency` bit, and
the already-parsed page object list in document order. -/
structure Page where
  width : ℚ
  height : ℚ
  hasTransparency : Bool
  objects : List PageObject
deriving DecidableEq, Repr

/-- Semantics of C `static_cast<int>` on a floating/rational value:
truncation toward zero. -/
def cppTrunc (q : ℚ) : Int := q.num.tdiv (q.den : Int)

/-- Target pixel buffer descriptor: width, height, alpha-capability flag
(spec section 3, RenderTarget). -/
structure RenderTarget where
  width : Int
  height : Int
  hasAlpha : Bool
deriving DecidableEq, Repr

/-- Render configuration, immutable once a session starts (spec section 3):
the `FPDF_ANNOT` flag, the `FPDF_CONVERT_FILL_TO_STROKE` flag, the optional
forced color scheme and the optional explicit background override. -/
structure RenderConfig where
  renderAnnots : Bool
  convertFillToStroke : Bool
  scheme : Option ColorScheme
  background : Option Color
deriving DecidableEq, Repr

/-- Session status reported by Start and Continue. -/
inductive Status
  | toBeContinued
  | done
deriving DecidableEq, Repr

/-- Error taxonomy of spec section 7 (backend failures are out of scope of
the shallow embedding; they are kept for completeness of the taxonomy). -/
inductive RenderError
  | invalidArgument
  | invalidState
  | backendFailure
deriving DecidableEq, Repr

/-- Session lifecycle state (spec section 3, SessionState), extended with the
post-`Close` condition in which no operation is valid any more. -/
inductive SessionState
  | notStarted
  | inProgress
  | done
  | closed
deriving DecidableEq, Repr

/-- An operation applied to the target pixel buffer, in application order.
The buffer content of a session is fully determined by its operation trace,
so the trace is the shallow embedding of the buffer. -/
inductive RenderEvent
  | background (c : Color)
  | fillOp (c : Color) (b : BlendMode)
  | strokeOp (c : Color) (b : BlendMode)
  | widget (appearance : Nat) (c : Color)
deriving DecidableEq, Repr

/-- Modelled from the spec: role lookup of the Color Substitution Policy for
fill paints — path vs. text keys into the four-entry scheme (spec 4.2); the
policy implementation is not among the sources, only its embedder test. -/
def roleFillColor (s : ColorScheme) (k : ObjKind) : Color :=
  match k with
  | .text => s.text_fill_color
  | _ => s.path_fill_color

/-- Modelled from the spec: role lookup of the Color Substitution Policy for
stroke paints (spec 4.2). -/
def roleStrokeColor (s : ColorScheme) (k : ObjKind) : Color :=
  match k with
  | .text => s.text_stroke_color
  | _ => s.path_stroke_color

/-- Modelled from the spec: paint operations emitted for one page object
(spec 4.2).  With no scheme the native colors are used.  With a scheme the
role-matched override replaces the native color while the blend mode is
preserved; with the convert-fill-to-stroke flag set, a fill paint is
rewritten to a stroke-only paint in the scheme's stroke color for the
object's role and the fill is suppressed. -/
def objectOps (convert : Bool) (scheme : Option ColorScheme) (o : PageObject) :
    List RenderEvent :=
  let fillEvs : List RenderEvent :=
    match o.fillColor, scheme with
    | none, _ => []
    | some c, none => [.fillOp c o.blend]
    | some _, some s =>
        if convert then [.strokeOp (roleStrokeColor s o.kind) o.blend]
        else [.fillOp (roleFillColor s o.kind) o.blend]
  let strokeEvs : List RenderEvent :=
    match o.strokeColor, scheme with
    | none, _ => []
    | some c, none => [.strokeOp c o.blend]
    | some _, some s => [.strokeOp (roleStrokeColor s o.kind) o.blend]
  fillEvs ++ strokeEvs

/-- Modelled from the spec: the object list actually rasterized — annotation
appearance streams are included only under the render-annotations flag
(spec section 6, flags). -/
def paintedObjects (renderAnnots : Bool) (objs : List PageObject) :
    List PageObject :=
  if renderAnnots then objs else objs.filter (fun o => !o.annot)

/-- Concatenated paint operations of a list of objects, in document order. -/
def contentOps (cfg : RenderConfig) (objs : List PageObject) :
    List RenderEvent :=
  objs.flatMap (fun o => objectOps cfg.convertFillToStroke cfg.scheme o)

/-- Default background: fully transparent for an alpha target, opaque white
otherwise (spec 4.3). -/
def defaultBackground (hasAlpha : Bool) : Color :=
  if hasAlpha then 0x00000000 else 0xFFFFFFFF

/-- Background color used by a session: the explicit override when present,
else the alpha-dependent default (spec 4.3). -/
def sessionBackground (cfg : RenderConfig) (t : RenderTarget) : Color :=
  cfg.background.getD (defaultBackground t.hasAlpha)

/-- Result of one Start/Continue call's batch loop: the events emitted, the
new cursor, and the returned status. -/
structure StepResult where
  events : List RenderEvent
  cursor : Nat
  status : Status
deriving DecidableEq, Repr

/-- Modelled from the spec: the batch loop of Start/Continue (spec 4.1).
One page object per batch; after each object the Pause Controller is polled
(indexed by the batch boundary just reached).  A pause returns
`toBeContinued` with the cursor preserved; exhausting the object list
returns `done`. -/
def renderStep (cfg : RenderConfig) (pause : Nat → Bool) :
    List PageObject → Nat → StepResult
  | [], cursor => ⟨[], cursor, .done⟩
  | o :: rest, cursor =>
    let evs := objectOps cfg.convertFillToStroke cfg.scheme o
    if pause (cursor + 1) then ⟨evs, cursor + 1, .toBeContinued⟩
    else
      let r := renderStep cfg pause rest (cursor + 1)
      ⟨evs ++ r.events, r.cursor, r.status⟩

/-- Render session: lifecycle state, iteration cursor, the operation trace of
the borrowed buffer, the immutable configuration and the rasterized object
list (spec section 3). -/
structure Session where
  state : SessionState
  cursor : Nat
  buffer : List RenderEvent
  cfg : RenderConfig
  objs : List PageObject
deriving DecidableEq, Repr

/-- A fresh, not-yet-started session. -/
def Session.new : Session :=
  ⟨.notStarted, 0, [], ⟨false, false, none, none⟩, []⟩

/-- Modelled from the spec: `Start` (spec 4.1) — valid only on a session not
yet started; validates that the target dimensions match the page's device
extent, fills the buffer once with the session background, then rasterizes
from cursor 0 under the batching/pause policy.  Misuse is reported without
mutating prior state. -/
def Session.start (s : Session) (t : RenderTarget) (page : Page)
    (cfg : RenderConfig) (pause : Nat → Bool) :
    Session × Except RenderError Status :=
  if s.state = .notStarted then
    if t.width = cppTrunc page.width ∧ t.height = cppTrunc page.height then
      let objs := paintedObjects cfg.renderAnnots page.objects
      let bg := sessionBackground cfg t
      let r := renderStep cfg pause objs 0
      ({ state := match r.status with
           | .done => .done
           | .toBeContinued => .inProgress,
         cursor := r.cursor,
         buffer := .background bg :: r.events,
         cfg := cfg,
         objs := objs }, .ok r.status)
    else (s, .error .invalidArgument)
  else (s, .error .invalidState)

/-- Modelled from the spec: `Continue` (spec 4.1) — valid only in state
`InProgress`, else fails with `InvalidState` without mutating prior state;
resumes at the preserved cursor under the same batching/pause policy. -/
def Session.continueRender (s : Session) (pause : Nat → Bool) :
    Session × Except RenderError Status :=
  if s.state = .inProgress then
    let r := renderStep s.cfg pause (s.objs.drop s.cursor) s.cursor
    ({ s with
        state := match r.status with
          | .done => .done
          | .toBeContinued => .inProgress,
        cursor := r.cursor,
        buffer := s.buffer ++ r.events }, .ok r.status)
  else (s, .error .invalidState)

/-- A form widget of the external form layer: an opaque native appearance id
and its native paint color. -/
structure FormWidget where
  appearance : Nat
  nativeColor : Color
deriving DecidableEq, Repr

/-- External form layer handle contents. -/
structure FormLayer where
  widgets : List FormWidget
deriving DecidableEq, Repr

/-- Modelled from the spec: the Overlay Compositor's operations (spec 4.4) —
widget appearances are drawn with their native colors; no color scheme is
consulted. -/
def overlayEvents (fl : FormLayer) : List RenderEvent :=
  fl.widgets.map (fun w => .widget w.appearance w.nativeColor)

/-- Overlay operations of an optional form layer handle; a missing handle is
a no-op (spec 4.4). -/
def overlayOf : Option FormLayer → List RenderEvent
  | none => []
  | some fl => overlayEvents fl

/-- Modelled from the spec: `DrawFormOverlay` (spec 4.4 and section 6) —
invoked between reaching `Done` and `Close`; a single terminal pass drawing
the widget appearances onto the finished buffer with their native colors. -/
def Session.drawFormOverlay (s : Session) (handle : Option FormLayer) :
    Session × Except RenderError Unit :=
  if s.state = .done then
    match handle with
    | none => (s, .ok ())
    | some fl => ({ s with buffer := s.buffer ++ overlayEvents fl }, .ok ())
  else (s, .error .invalidState)

/-- Modelled from the spec: `Close` (spec 4.1) — valid only in state `Done`,
else fails with `InvalidState` without mutating prior state; hands the buffer
back and leaves the session closed, after which no operation is valid. -/
def Session.close (s : Session) :
    Session × Except RenderError (List RenderEvent) :=
  if s.state = .done then
    ({ s with state := .closed }, .ok s.buffer)
  else (s, .error .invalidState)

/-- Driving loop of the embedder test: keep calling Continue while the
session is in progress, with bounded fuel. -/
def drive (pause : Nat → Bool) : Nat → Session → Session
  | 0, s => s
  | fuel + 1, s =>
    if s.state = .inProgress then
      drive pause fuel (s.continueRender pause).1
    else s

/-- Complete progressive render of a page, as the embedder test performs it:
Start, Continue until `Done`, draw the form overlay, Close, yielding the
buffer handed back by Close. -/
def renderFull (page : Page) (t : RenderTarget) (cfg : RenderConfig)
    (pause : Nat → Bool) (handle : Option FormLayer) :
    Except RenderError (List RenderEvent) :=
  let s1 := (Session.new.start t page cfg pause).1
  let s2 := drive pause (page.objects.length + 1) s1
  let s3 := (s2.drawFormOverlay handle).1
  s3.close.2

/-! ### Test-harness helpers, embedded from the source file -/

/-- Bitmap descriptor as created by `FPDFBitmap_Create(width, height, alpha)`
in the harness. -/
structure FpdfBitmap where
  width : Int
  height : Int
  alpha : Int
deriving DecidableEq, Repr

/-- Observable outcome of a harness Start helper: the bitmap it creates, the
color it fills the bitmap with, and the flags it stores. -/
structure HarnessStart where
  bitmap : FpdfBitmap
  fillColor : Color
  flags : Int
deriving DecidableEq, Repr

/-- Embedding of `FPDFProgressiveRenderEmbedderTest::StartRenderPageWithFlags`
(source lines 136-153): width and height are the page's dimensions cast to
`int`, the alpha request is 1 exactly when `FPDFPage_HasTransparency(page)`,
and the initial fill color is transparent for an alpha bitmap, else opaque
white. -/
def startRenderPageWithFlags (page : Page) (flags : Int) : HarnessStart :=
  let width := cppTrunc page.width
  let height := cppTrunc page.height
  let alpha : Int := if page.hasTransparency then 1 else 0
  let fill_color : Color := if alpha ≠ 0 then 0x00000000 else 0xFFFFFFFF
  { bitmap := ⟨width, height, alpha⟩, fillColor := fill_color, flags := flags }

/-- Embedding of
`FPDFProgressiveRenderEmbedderTest::StartRenderPageWithColorSchemeAndBackground`
(source lines 155-175): same bitmap creation as `startRenderPageWithFlags`,
but the bitmap is filled with the caller-supplied background color. -/
def startRenderPageWithColorSchemeAndBackground (page : Page) (flags : Int)
    (background_color : Color) : HarnessStart :=
  let width := cppTrunc page.width
  let height := cppTrunc page.height
  let alpha : Int := if page.hasTransparency then 1 else 0
  { bitmap := ⟨width, height, alpha⟩, fillColor := background_color,
    flags := flags }

/-! ### Pixel compositing model for blend modes -/

/-- An RGB pixel with 8-bit channels. -/
structure RGB where
  r : Nat
  g : Nat
  b : Nat
deriving DecidableEq, Repr

/-- Per-channel multiply compositing: `a * b / 255`. -/
def channelMul (a b : Nat) : Nat := a * b / 255

/-- Modelled from the spec: the blend-mode compositing function of the raster
backend (spec glossary) — `normal` replaces the destination with the source,
`multiply` multiplies per channel. -/
def blendRGB : BlendMode → RGB → RGB → RGB
  | .normal, src, _ => src
  | .multiply, src, dst =>
      ⟨channelMul src.r dst.r, channelMul src.g dst.g, channelMul src.b dst.b⟩

/-- Red channel of an ARGB color value. -/
def argbR (c : Color) : Nat := c / 0x10000 % 0x100

/-- Green channel of an ARGB color value. -/
def argbG (c : Color) : Nat := c / 0x100 % 0x100

/-- Blue channel of an ARGB color value. -/
def argbB (c : Color) : Nat := c % 0x100

/-- RGB channels of an ARGB color value. -/
def argbToRGB (c : Color) : RGB := ⟨argbR c, argbG c, argbB c⟩

/-- Pixel produced by compositing one paint event over a destination pixel it
covers; non-paint events yield none. -/
def eventPixelOver (ev : RenderEvent) (dst : RGB) : Option RGB :=
  match ev with
  | .fillOp c b => some (blendRGB b (argbToRGB c) dst)
  | .strokeOp c b => some (blendRGB b (argbToRGB c) dst)
  | _ => none

/-! ### Event classifiers and projections -/

/-- Whether an event is the background fill. -/
def isBackgroundEv : RenderEvent → Bool
  | .background _ => true
  | _ => false

/-- Whether an event is a fill paint. -/
def isFillEv : RenderEvent → Bool
  | .fillOp _ _ => true
  | _ => false

/-- Whether an event is a form-widget overlay draw. -/
def isWidgetEv : RenderEvent → Bool
  | .widget _ _ => true
  | _ => false

/-- Colors of the fill paints of a trace, in order. -/
def fillColorsOf (buf : List RenderEvent) : List Color :=
  buf.filterMap fun ev =>
    match ev with
    | .fillOp c _ => some c
    | _ => none

/-- Whether an event is a stroke paint. -/
def isStrokeEv : RenderEvent → Bool
  | .strokeOp _ _ => true
  | _ => false

/-- Whether every fill paint of a trace uses the given color. -/
def fillsUseColor (col : Color) (buf : List RenderEvent) : Bool :=
  buf.all fun ev =>
    match ev with
    | .fillOp c _ => c == col
    | _ => true

/-- Whether every stroke paint of a trace uses the given color. -/
def strokesUseColor (col : Color) (buf : List RenderEvent) : Bool :=
  buf.all fun ev =>
    match ev with
    | .strokeOp c _ => c == col
    | _ => true

/-! ### Derived notions used by the proofs -/

/-- Pause controller that never pauses, as `FakePause(false)` in the test. -/
def neverPause : Nat → Bool := fun _ => false

/-- Pause controller that pauses at every batch boundary, as `FakePause(true)`
in the test. -/
def alwaysPause : Nat → Bool := fun _ => true

/-- Buffer handed back by a successful full render; empty on failure. -/
def renderBuffer (page : Page) (t : RenderTarget) (cfg : RenderConfig)
    (pause : Nat → Bool) (handle : Option FormLayer) : List RenderEvent :=
  match renderFull page t cfg pause handle with
  | .ok buf => buf
  | .error _ => []

/-- Session produced by a successful `Start` on a fresh session. -/
def startedSession (t : RenderTarget) (page : Page) (cfg : RenderConfig)
    (pause : Nat → Bool) : Session :=
  let objs := paintedObjects cfg.renderAnnots page.objects
  let r := renderStep cfg pause objs 0
  { state := match r.status with
      | .done => .done
      | .toBeContinued => .inProgress,
    cursor := r.cursor,
    buffer := .background (sessionBackground cfg t) :: r.events,
    cfg := cfg,
    objs := objs }

/-- Session invariant maintained between Start/Continue calls: configuration
and object list fixed, cursor within bounds, buffer equal to the background
fill followed by the paint operations of the consumed prefix, and the state
`InProgress`, or `Done` with the list exhausted. -/
def GoodSession (cfg : RenderConfig) (bg : Color) (objs : List PageObject)
    (s : Session) : Prop :=
  s.cfg = cfg ∧ s.objs = objs ∧ s.cursor ≤ objs.length ∧
    s.buffer = .background bg :: contentOps cfg (objs.take s.cursor) ∧
    (s.state = .inProgress ∨ (s.state = .done ∧ s.cursor = objs.length))

/-! ### Concrete sample inputs used by the witnesses -/

/-- A solid red filled rectangle path object. -/
def sampleRectA : PageObject := ⟨.path, false, some kRed, none, .normal⟩

/-- A solid blue filled rectangle path object. -/
def sampleRectB : PageObject := ⟨.path, false, some kBlue, none, .normal⟩

/-- A black text run. -/
def sampleText : PageObject := ⟨.text, false, some kBlack, none, .normal⟩

/-- A highlight-like annotation object: a filled path with multiply blend. -/
def sampleHighlight : PageObject := ⟨.path, true, some kRed, none, .multiply⟩

/-- A two-rectangle page with integer dimensions. -/
def samplePage : Page := ⟨200, 300, false, [sampleRectA, sampleRectB]⟩

/-- A text-only page. -/
def sampleTextPage : Page := ⟨200, 200, false, [sampleText]⟩

/-- Target matching `samplePage`. -/
def sampleTarget : RenderTarget := ⟨200, 300, false⟩

/-- Target matching `sampleTextPage`. -/
def sampleTextTarget : RenderTarget := ⟨200, 200, false⟩

/-- A form layer with two widgets. -/
def sampleLayer : FormLayer := ⟨[⟨0, kGreen⟩, ⟨1, kBlack⟩]⟩

/-- Plain configuration: annotations on, no conversion, no scheme, default
background. -/
def baseCfg : RenderConfig := ⟨true, false, none, none⟩

/-- Scheme of the `RenderTextWithColorScheme` test:
path-fill black, path-stroke white, text-fill white, text-stroke white. -/
def textScheme : ColorScheme := ⟨kBlack, kWhite, kWhite, kWhite⟩

/-- Scheme of the `RenderPathWithColorScheme` tests. -/
def rectScheme : ColorScheme := ⟨kWhite, kRed, kBlue, kBlue⟩

/-- Scheme of the `RenderHighlightWithColorScheme` test. -/
def highlightScheme : ColorScheme := ⟨kRed, kGreen, kWhite, kWhite⟩

/-- Configuration with the `rectScheme` forced color scheme. -/
def schemeCfg : RenderConfig := ⟨true, false, some rectScheme, none⟩

/-- A single-object page with transparency. -/
def alphaPage : Page := ⟨100, 100, true, [sampleRectA]⟩

/-- Alpha-capable target matching `alphaPage`. -/
def alphaTarget : RenderTarget := ⟨100, 100, true⟩

/-- A session that has reached the `Done` state. -/
def doneSession : Session :=
  ⟨.done, 2, [.background kWhite], ⟨true, false, none, none⟩,
    [sampleRectA, sampleRectB]⟩

/-! ### Helper lemmas -/

theorem contentOps_nil (cfg : RenderConfig) : contentOps cfg [] = [] := rfl

theorem contentOps_cons (cfg : RenderConfig) (o : PageObject)
    (l : List PageObject) :
    contentOps cfg (o :: l) =
      objectOps cfg.convertFillToStroke cfg.scheme o ++ contentOps cfg l := by
  simp [contentOps]

theorem contentOps_append (cfg : RenderConfig) (l₁ l₂ : List PageObject) :
    contentOps cfg (l₁ ++ l₂) = contentOps cfg l₁ ++ contentOps cfg l₂ := by
  simp [contentOps]

theorem renderStep_noPause (cfg : RenderConfig) (objs : List PageObject) :
    ∀ cursor : Nat,
      renderStep cfg neverPause objs cursor =
        ⟨contentOps cfg objs, cursor + objs.length, .done⟩ := by
  induction objs with
  | nil => intro cursor; simp [renderStep, contentOps]
  | cons o rest ih =>
      intro cursor
      simp only [renderStep, neverPause, Bool.false_eq_true, if_false,
        ih (cursor + 1), contentOps_cons, List.length_cons]
      exact congrArg₂ (StepResult.mk _) (by omega) rfl

theorem renderStep_char (cfg : RenderConfig) (pause : Nat → Bool)
    (objs : List PageObject) : ∀ cursor : Nat,
    ∃ k, k ≤ objs.length ∧
      (renderStep cfg pause objs cursor).events =
        contentOps cfg (objs.take k) ∧
      (renderStep cfg pause objs cursor).cursor = cursor + k ∧
      (((renderStep cfg pause objs cursor).status = .done ∧
          k = objs.length) ∨
       ((renderStep cfg pause objs cursor).status = .toBeContinued ∧
          1 ≤ k ∧ pause (cursor + k) = true)) := by
  induction objs with
  | nil =>
      intro cursor
      exact ⟨0, by simp [renderStep, contentOps]⟩
  | cons o rest ih =>
      intro cursor
      by_cases hp : pause (cursor + 1)
      · refine ⟨1, by simp, ?_, ?_, ?_⟩
        · simp [renderStep, hp, contentOps_cons, contentOps]
        · simp [renderStep, hp]
        · right
          refine ⟨by simp [renderStep, hp], le_refl 1, hp⟩
      · obtain ⟨k, hk, he, hc, hs⟩ := ih (cursor + 1)
        refine ⟨k + 1, by simpa using Nat.succ_le_succ hk, ?_, ?_, ?_⟩
        · simp [renderStep, hp, List.take_succ_cons, contentOps_cons, he]
        · rw [show (renderStep cfg pause (o :: rest) cursor).cursor =
              (renderStep cfg pause rest (cursor + 1)).cursor from by
                simp [renderStep, hp], hc]
          omega
        · rcases hs with ⟨h1, h2⟩ | ⟨h1, h2, h3⟩
          · left
            refine ⟨by simp [renderStep, hp, h1], by simp [h2]⟩
          · right
            refine ⟨by simp [renderStep, hp, h1], by omega, ?_⟩
            have harith : cursor + (k + 1) = cursor + 1 + k := by omega
            rw [harith]; exact h3

theorem renderStep_pause_fires (cfg : RenderConfig) (pause : Nat → Bool)
    (objs : List PageObject) : ∀ cursor : Nat,
    (∃ k, 1 ≤ k ∧ k ≤ objs.length ∧ pause (cursor + k) = true) →
    (renderStep cfg pause objs cursor).status = .toBeContinued := by
  induction objs with
  | nil =>
      intro cursor ⟨k, h1, hk, _⟩
      simp only [List.length_nil] at hk
      omega
  | cons o rest ih =>
      intro cursor ⟨k, h1, hk, hp⟩
      by_cases hfirst : pause (cursor + 1)
      · simp [renderStep, hfirst]
      · have hne : k ≠ 1 := by
          intro hk1
          rw [hk1] at hp
          exact hfirst hp
        have hrec := ih (cursor + 1)
          ⟨k - 1, by omega, by simp only [List.length_cons] at hk; omega,
            by rw [show cursor + 1 + (k - 1) = cursor + k from by omega]
               exact hp⟩
        simp [renderStep, hfirst, hrec]

theorem start_eq (s : Session) (t : RenderTarget) (page : Page)
    (cfg : RenderConfig) (pause : Nat → Bool)
    (hs : s.state = .notStarted)
    (hw : t.width = cppTrunc page.width)
    (hh : t.height = cppTrunc page.height) :
    s.start t page cfg pause =
      (startedSession t page cfg pause,
       .ok (renderStep cfg pause
         (paintedObjects cfg.renderAnnots page.objects) 0).status) := by
  simp [Session.start, startedSession, hs, hw, hh]

theorem startedSession_good (t : RenderTarget) (page : Page)
    (cfg : RenderConfig) (pause : Nat → Bool) :
    GoodSession cfg (sessionBackground cfg t)
      (paintedObjects cfg.renderAnnots page.objects)
      (startedSession t page cfg pause) := by
  obtain ⟨k, hk, he, hc, hs⟩ :=
    renderStep_char cfg pause (paintedObjects cfg.renderAnnots page.objects) 0
  refine ⟨rfl, rfl, ?_, ?_, ?_⟩
  · simp [startedSession, hc]; omega
  · simp [startedSession, he, hc]
  · rcases hs with ⟨h1, h2⟩ | ⟨h1, h2, h3⟩
    · right
      constructor
      · simp [startedSession, h1]
      · simp [startedSession, hc, h2]
    · left
      simp [startedSession, h1]

theorem continue_eq (s : Session) (pause : Nat → Bool)
    (hip : s.state = .inProgress) :
    s.continueRender pause =
      ({ s with
          state := match (renderStep s.cfg pause (s.objs.drop s.cursor)
              s.cursor).status with
            | .done => .done
            | .toBeContinued => .inProgress,
          cursor := (renderStep s.cfg pause (s.objs.drop s.cursor)
            s.cursor).cursor,
          buffer := s.buffer ++ (renderStep s.cfg pause
            (s.objs.drop s.cursor) s.cursor).events },
       .ok (renderStep s.cfg pause (s.objs.drop s.cursor)
         s.cursor).status) := by
  simp [Session.continueRender, hip]

theorem continue_good {cfg : RenderConfig} {bg : Color}
    {objs : List PageObject} {s : Session} (pause : Nat → Bool)
    (h : GoodSession cfg bg objs s) (hip : s.state = .inProgress) :
    GoodSession cfg bg objs (s.continueRender pause).1 ∧
      ((s.continueRender pause).1.state = .inProgress →
        s.cursor < (s.continueRender pause).1.cursor) := by
  obtain ⟨hcfg, hobjs, hcur, hbuf, _⟩ := h
  subst hcfg
  subst hobjs
  obtain ⟨k, hk, he, hc, hs⟩ :=
    renderStep_char s.cfg pause (s.objs.drop s.cursor) s.cursor
  rw [List.length_drop] at hk
  have hbuf' : s.buffer ++ (renderStep s.cfg pause
      (s.objs.drop s.cursor) s.cursor).events =
      .background bg :: contentOps s.cfg (s.objs.take (s.cursor + k)) := by
    rw [hbuf, he, List.take_add, contentOps_append, List.cons_append]
  rw [continue_eq s pause hip]
  unfold GoodSession
  rcases hs with ⟨h1, h2⟩ | ⟨h1, h2, _⟩
  · rw [List.length_drop] at h2
    refine ⟨⟨rfl, rfl, ?_, ?_, ?_⟩, ?_⟩
    · simp only [hc]
      omega
    · simpa [hc] using hbuf'
    · right
      exact ⟨by simp [h1], by simp only [hc]; omega⟩
    · intro hcontra
      simp [h1] at hcontra
  · refine ⟨⟨rfl, rfl, ?_, ?_, ?_⟩, ?_⟩
    · simp only [hc]
      omega
    · simpa [hc] using hbuf'
    · left
      simp [h1]
    · intro _
      simp only [hc]
      omega

theorem drive_of_idle (pause : Nat → Bool) (fuel : Nat) (s : Session)
    (h : s.state ≠ .inProgress) : drive pause fuel s = s := by
  cases fuel with
  | zero => rfl
  | succ n => simp [drive, h]

theorem drive_done (pause : Nat → Bool) (cfg : RenderConfig) (bg : Color)
    (objs : List PageObject) :
    ∀ (fuel : Nat) (s : Session), GoodSession cfg bg objs s →
      objs.length < fuel + s.cursor →
      (drive pause fuel s).state = .done ∧
        GoodSession cfg bg objs (drive pause fuel s) := by
  intro fuel
  induction fuel with
  | zero =>
      intro s hg hf
      exact absurd hf (by have := hg.2.2.1; omega)
  | succ n ih =>
      intro s hg hf
      rcases hg.2.2.2.2 with hip | ⟨hdone, _⟩
      · have hstep := continue_good pause hg hip
        have hdr : drive pause (n + 1) s =
            drive pause n (s.continueRender pause).1 := by
          simp [drive, hip]
        rw [hdr]
        rcases (hstep.1).2.2.2.2 with hip' | ⟨hdone', _⟩
        · exact ih _ hstep.1 (by have := hstep.2 hip'; omega)
        · rw [drive_of_idle pause n _ (by rw [hdone']; simp)]
          exact ⟨hdone', hstep.1⟩
      · rw [drive_of_idle pause (n + 1) s (by rw [hdone]; simp)]
        exact ⟨hdone, hg⟩

theorem renderFull_ok (page : Page) (t : RenderTarget) (cfg : RenderConfig)
    (pause : Nat → Bool) (handle : Option FormLayer)
    (hw : t.width = cppTrunc page.width)
    (hh : t.height = cppTrunc page.height) :
    renderFull page t cfg pause handle =
      .ok (.background (sessionBackground cfg t) ::
        (contentOps cfg (paintedObjects cfg.renderAnnots page.objects) ++
          overlayOf handle)) := by
  have hstart := start_eq Session.new t page cfg pause rfl hw hh
  have hg1 := startedSession_good t page cfg pause
  have hlen : (paintedObjects cfg.renderAnnots page.objects).length ≤
      page.objects.length := by
    unfold paintedObjects
    split
    · exact le_refl _
    · exact List.length_filter_le _ _
  obtain ⟨hdone, hgood⟩ := drive_done pause cfg (sessionBackground cfg t)
    (paintedObjects cfg.renderAnnots page.objects)
    (page.objects.length + 1) (startedSession t page cfg pause) hg1
    (by omega)
  obtain ⟨_, _, _, hbuf2, hstates⟩ := hgood
  have hcur2 : (drive pause (page.objects.length + 1)
      (startedSession t page cfg pause)).cursor =
      (paintedObjects cfg.renderAnnots page.objects).length := by
    rcases hstates with hip | ⟨_, hc⟩
    · rw [hip] at hdone; cases hdone
    · exact hc
  rw [hcur2, List.take_length] at hbuf2
  unfold renderFull
  rw [hstart]
  simp only
  cases handle with
  | none =>
      simp only [Session.drawFormOverlay, hdone, if_true, reduceIte]
      simp [Session.close, hdone, hbuf2, overlayOf]
  | some fl =>
      simp only [Session.drawFormOverlay, hdone, if_true, reduceIte]
      simp [Session.close, hdone, hbuf2, overlayOf]

theorem objectOps_noScheme (convert : Bool) (o : PageObject) :
    objectOps convert none o =
      (match o.fillColor with
        | none => []
        | some c => [.fillOp c o.blend]) ++
      (match o.strokeColor with
        | none => []
        | some c => [.strokeOp c o.blend]) := by
  rcases o with ⟨k, a, fc, sc, b⟩
  cases fc <;> cases sc <;> rfl

theorem objectOps_scheme_off (sch : ColorScheme) (o : PageObject) :
    objectOps false (some sch) o =
      (match o.fillColor with
        | none => []
        | some _ => [.fillOp (roleFillColor sch o.kind) o.blend]) ++
      (match o.strokeColor with
        | none => []
        | some _ => [.strokeOp (roleStrokeColor sch o.kind) o.blend]) := by
  rcases o with ⟨k, a, fc, sc, b⟩
  cases fc <;> cases sc <;> rfl

theorem objectOps_scheme_on (sch : ColorScheme) (o : PageObject) :
    objectOps true (some sch) o =
      (match o.fillColor with
        | none => []
        | some _ => [.strokeOp (roleStrokeColor sch o.kind) o.blend]) ++
      (match o.strokeColor with
        | none => []
        | some _ => [.strokeOp (roleStrokeColor sch o.kind) o.blend]) := by
  rcases o with ⟨k, a, fc, sc, b⟩
  cases fc <;> cases sc <;> rfl

theorem objectOps_shape (convert : Bool) (scheme : Option ColorScheme)
    (o : PageObject) :
    ∀ ev ∈ objectOps convert scheme o,
      (∃ c b, ev = .fillOp c b) ∨ (∃ c b, ev = .strokeOp c b) := by
  intro ev hev
  rcases o with ⟨k, a, fc, sc, b⟩
  unfold objectOps at hev
  cases fc <;> cases sc <;> cases scheme <;> cases convert <;> simp at hev
  all_goals
    rcases hev with rfl | rfl <;>
      first
        | exact Or.inl ⟨_, _, rfl⟩
        | exact Or.inr ⟨_, _, rfl⟩

theorem contentOps_countP_bg (cfg : RenderConfig) (objs : List PageObject) :
    (contentOps cfg objs).countP isBackgroundEv = 0 := by
  rw [List.countP_eq_zero]
  intro ev hev
  rcases List.mem_flatMap.mp hev with ⟨o, _, ho⟩
  rcases objectOps_shape cfg.convertFillToStroke cfg.scheme o ev ho with
    ⟨c, b, rfl⟩ | ⟨c, b, rfl⟩ <;> simp [isBackgroundEv]

theorem contentOps_no_widget (cfg : RenderConfig) (objs : List PageObject) :
    (contentOps cfg objs).filter isWidgetEv = [] := by
  rw [List.filter_eq_nil_iff]
  intro ev hev
  rcases List.mem_flatMap.mp hev with ⟨o, _, ho⟩
  rcases objectOps_shape cfg.convertFillToStroke cfg.scheme o ev ho with
    ⟨c, b, rfl⟩ | ⟨c, b, rfl⟩ <;> simp [isWidgetEv]

theorem overlayOf_filter_widget (handle : Option FormLayer) :
    (overlayOf handle).filter isWidgetEv = overlayOf handle := by
  rw [List.filter_eq_self]
  intro ev hev
  cases handle with
  | none => cases hev
  | some fl =>
      rcases List.mem_map.mp hev with ⟨w, _, rfl⟩
      rfl

theorem overlayOf_countP_bg (handle : Option FormLayer) :
    (overlayOf handle).countP isBackgroundEv = 0 := by
  rw [List.countP_eq_zero]
  intro ev hev
  cases handle with
  | none => cases hev
  | some fl =>
      rcases List.mem_map.mp hev with ⟨w, _, rfl⟩
      simp [isBackgroundEv]

theorem overlayOf_countP_fill (handle : Option FormLayer) :
    (overlayOf handle).countP isFillEv = 0 := by
  rw [List.countP_eq_zero]
  intro ev hev
  cases handle with
  | none => cases hev
  | some fl =>
      rcases List.mem_map.mp hev with ⟨w, _, rfl⟩
      simp [isFillEv]

theorem overlayOf_fillColors (handle : Option FormLayer) :
    fillColorsOf (overlayOf handle) = [] := by
  unfold fillColorsOf
  rw [List.filterMap_eq_nil_iff]
  intro ev hev
  cases handle with
  | none => cases hev
  | some fl =>
      rcases List.mem_map.mp hev with ⟨w, _, rfl⟩
      rfl

theorem renderBuffer_eq (page : Page) (t : RenderTarget) (cfg : RenderConfig)
    (pause : Nat → Bool) (handle : Option FormLayer)
    (hw : t.width = cppTrunc page.width)
    (hh : t.height = cppTrunc page.height) :
    renderBuffer page t cfg pause handle =
      .background (sessionBackground cfg t) ::
        (contentOps cfg (paintedObjects cfg.renderAnnots page.objects) ++
          overlayOf handle) := by
  unfold renderBuffer
  rw [renderFull_ok page t cfg pause handle hw hh]

theorem paintedObjects_of_no_annot (ra : Bool) (objs : List PageObject)
    (h : ∀ o ∈ objs, o.annot = false) : paintedObjects ra objs = objs := by
  unfold paintedObjects
  split
  · rfl
  · exact List.filter_eq_self.mpr (fun o ho => by simp [h o ho])

theorem overlay_fill_iff (handle : Option FormLayer) {c : Color}
    {b : BlendMode} :
    RenderEvent.fillOp c b ∈ overlayOf handle ↔ False := by
  constructor
  · intro hmem
    cases handle with
    | none => cases hmem
    | some fl =>
        rcases List.mem_map.mp hmem with ⟨w, _, heq⟩
        cases heq
  · intro h
    cases h

theorem contentOps_countP_widget (cfg : RenderConfig)
    (objs : List PageObject) :
    (contentOps cfg objs).countP isWidgetEv = 0 := by
  rw [List.countP_eq_length_filter, contentOps_no_widget]
  rfl

theorem overlayOf_countP_widget (handle : Option FormLayer) :
    (overlayOf handle).countP isWidgetEv = (overlayOf handle).length := by
  rw [List.countP_eq_length_filter, overlayOf_filter_widget]

theorem mem_buffer_fill (page : Page) (t : RenderTarget) (cfg : RenderConfig)
    (pause : Nat → Bool) (handle : Option FormLayer) {c : Color}
    {b : BlendMode}
    (hw : t.width = cppTrunc page.width)
    (hh : t.height = cppTrunc page.height) :
    RenderEvent.fillOp c b ∈ renderBuffer page t cfg pause handle ↔
      RenderEvent.fillOp c b ∈
        contentOps cfg (paintedObjects cfg.renderAnnots page.objects) := by
  rw [renderBuffer_eq page t cfg pause handle hw hh]
  simp [overlay_fill_iff]

theorem overlay_stroke_iff (handle : Option FormLayer) {c : Color}
    {b : BlendMode} :
    RenderEvent.strokeOp c b ∈ overlayOf handle ↔ False := by
  constructor
  · intro hmem
    cases handle with
    | none => cases hmem
    | some fl =>
        rcases List.mem_map.mp hmem with ⟨w, _, heq⟩
        cases heq
  · intro h
    cases h

theorem overlayOf_countP_stroke (handle : Option FormLayer) :
    (overlayOf handle).countP isStrokeEv = 0 := by
  rw [List.countP_eq_zero]
  intro ev hev
  cases handle with
  | none => cases hev
  | some fl =>
      rcases List.mem_map.mp hev with ⟨w, _, rfl⟩
      simp [isStrokeEv]

theorem mem_buffer_stroke (page : Page) (t : RenderTarget)
    (cfg : RenderConfig) (pause : Nat → Bool) (handle : Option FormLayer)
    {c : Color} {b : BlendMode}
    (hw : t.width = cppTrunc page.width)
    (hh : t.height = cppTrunc page.height) :
    RenderEvent.strokeOp c b ∈ renderBuffer page t cfg pause handle ↔
      RenderEvent.strokeOp c b ∈
        contentOps cfg (paintedObjects cfg.renderAnnots page.objects) := by
  rw [renderBuffer_eq page t cfg pause handle hw hh]
  simp [overlay_stroke_iff]

theorem fillsUseColor_iff (col : Color) (buf : List RenderEvent) :
    fillsUseColor col buf = true ↔
      ∀ c b, RenderEvent.fillOp c b ∈ buf → c = col := by
  unfold fillsUseColor
  rw [List.all_eq_true]
  constructor
  · intro h c b hmem
    simpa using h _ hmem
  · intro h ev hev
    cases ev with
    | fillOp c b => simpa using h c b hev
    | background c => rfl
    | strokeOp c b => rfl
    | widget a c => rfl

theorem strokesUseColor_iff (col : Color) (buf : List RenderEvent) :
    strokesUseColor col buf = true ↔
      ∀ c b, RenderEvent.strokeOp c b ∈ buf → c = col := by
  unfold strokesUseColor
  rw [List.all_eq_true]
  constructor
  · intro h c b hmem
    simpa using h _ hmem
  · intro h ev hev
    cases ev with
    | strokeOp c b => simpa using h c b hev
    | background c => rfl
    | fillOp c b => rfl
    | widget a c => rfl

theorem contentOps_fill_color_scheme (cfg : RenderConfig) (sch : ColorScheme)
    (objs : List PageObject)
    (hconv : cfg.convertFillToStroke = false)
    (hsch : cfg.scheme = some sch) :
    ∀ ev ∈ contentOps cfg objs, ∀ c b, ev = .fillOp c b →
      ∃ o ∈ objs, c = roleFillColor sch o.kind ∧ b = o.blend := by
  intro ev hev c b heq
  subst heq
  unfold contentOps at hev
  rw [hconv, hsch] at hev
  rcases List.mem_flatMap.mp hev with ⟨o, ho, hmem⟩
  refine ⟨o, ho, ?_⟩
  rcases o with ⟨k, a, fc, sc, bl⟩
  cases fc <;> cases sc <;> simp [objectOps] at hmem
  all_goals exact hmem

theorem contentOps_fill_mem_scheme (cfg : RenderConfig) (sch : ColorScheme)
    (objs : List PageObject)
    (hconv : cfg.convertFillToStroke = false)
    (hsch : cfg.scheme = some sch) {o : PageObject} {c : Color}
    (ho : o ∈ objs) (hf : o.fillColor = some c) :
    RenderEvent.fillOp (roleFillColor sch o.kind) o.blend ∈
      contentOps cfg objs := by
  unfold contentOps
  rw [hconv, hsch]
  refine List.mem_flatMap.mpr ⟨o, ho, ?_⟩
  rcases o with ⟨k, a, fc, sc, bl⟩
  cases hf
  cases sc <;> simp [objectOps]

theorem contentOps_fill_mem_noScheme (cfg : RenderConfig)
    (objs : List PageObject) (hsch : cfg.scheme = none) {o : PageObject}
    {c : Color} (ho : o ∈ objs) (hf : o.fillColor = some c) :
    RenderEvent.fillOp c o.blend ∈ contentOps cfg objs := by
  unfold contentOps
  rw [hsch]
  refine List.mem_flatMap.mpr ⟨o, ho, ?_⟩
  rcases o with ⟨k, a, fc, sc, bl⟩
  cases hf
  cases sc <;> simp [objectOps]

theorem contentOps_countP_fill_on (cfg : RenderConfig) (sch : ColorScheme)
    (objs : List PageObject)
    (hconv : cfg.convertFillToStroke = true)
    (hsch : cfg.scheme = some sch) :
    (contentOps cfg objs).countP isFillEv = 0 := by
  rw [List.countP_eq_zero]
  intro ev hev
  unfold contentOps at hev
  rw [hconv, hsch] at hev
  rcases List.mem_flatMap.mp hev with ⟨o, _, hmem⟩
  rcases o with ⟨k, a, fc, sc, bl⟩
  cases fc <;> cases sc <;> simp [objectOps] at hmem
  all_goals subst hmem
  all_goals simp [isFillEv]

theorem contentOps_countP_fill_off (cfg : RenderConfig) (sch : ColorScheme)
    (objs : List PageObject)
    (hconv : cfg.convertFillToStroke = false)
    (hsch : cfg.scheme = some sch)
    (hall : ∀ o ∈ objs, (∃ c, o.fillColor = some c) ∧
      o.strokeColor = none) :
    (contentOps cfg objs).countP isFillEv = objs.length := by
  induction objs with
  | nil => rfl
  | cons o rest ih =>
      rw [contentOps_cons, List.countP_append,
        ih (fun o' ho' => hall o' (List.mem_cons_of_mem o ho'))]
      obtain ⟨⟨c, hc⟩, hsc⟩ := hall o (List.mem_cons_self o rest)
      rcases o with ⟨k, a, fc, sc, bl⟩
      cases hc
      cases hsc
      rw [hconv, hsch]
      simp [objectOps, isFillEv, List.countP_cons]
      omega

theorem contentOps_countP_stroke_on (cfg : RenderConfig) (sch : ColorScheme)
    (objs : List PageObject)
    (hconv : cfg.convertFillToStroke = true)
    (hsch : cfg.scheme = some sch)
    (hall : ∀ o ∈ objs, (∃ c, o.fillColor = some c) ∧
      o.strokeColor = none) :
    (contentOps cfg objs).countP isStrokeEv = objs.length := by
  induction objs with
  | nil => rfl
  | cons o rest ih =>
      rw [contentOps_cons, List.countP_append,
        ih (fun o' ho' => hall o' (List.mem_cons_of_mem o ho'))]
      obtain ⟨⟨c, hc⟩, hsc⟩ := hall o (List.mem_cons_self o rest)
      rcases o with ⟨k, a, fc, sc, bl⟩
      cases hc
      cases hsc
      rw [hconv, hsch]
      simp [objectOps, isStrokeEv, List.countP_cons]
      omega

theorem contentOps_stroke_color_on (cfg : RenderConfig) (sch : ColorScheme)
    (objs : List PageObject)
    (hconv : cfg.convertFillToStroke = true)
    (hsch : cfg.scheme = some sch)
    (hpath : ∀ o ∈ objs, o.kind = .path) :
    ∀ ev ∈ contentOps cfg objs, ∀ c b, ev = .strokeOp c b →
      c = sch.path_stroke_color := by
  intro ev hev c b heq
  subst heq
  unfold contentOps at hev
  rw [hconv, hsch] at hev
  rcases List.mem_flatMap.mp hev with ⟨o, ho, hmem⟩
  have hk := hpath o ho
  rcases o with ⟨k, a, fc, sc, bl⟩
  simp only at hk
  subst hk
  cases fc <;> cases sc <;>
    simp [objectOps, roleStrokeColor] at hmem
  all_goals exact hmem.1

theorem mem_fillColorsOf {c : Color} {buf : List RenderEvent} :
    c ∈ fillColorsOf buf ↔ ∃ b, RenderEvent.fillOp c b ∈ buf := by
  unfold fillColorsOf
  rw [List.mem_filterMap]
  constructor
  · rintro ⟨ev, hev, heq⟩
    cases ev with
    | fillOp c' b =>
        simp only [Option.some.injEq] at heq
        exact ⟨b, heq ▸ hev⟩
    | background c' => cases heq
    | strokeOp c' b => cases heq
    | widget a c' => cases heq
  · rintro ⟨b, hb⟩
    exact ⟨.fillOp c b, hb, rfl⟩

/-! ### Claim theorems -/

/-- C10: the test harness creates the target bitmap with an alpha channel
exactly when `FPDFPage_HasTransparency(page)` is true, with width and height
equal to the page's width and height truncated to `int`; both Start helpers
derive the alpha capability from the page and never take it from the
caller. -/
theorem C10_harness_bitmap_from_page (page : Page) (flags : Int)
    (bg : Color) :
    ((startRenderPageWithFlags page flags).bitmap.alpha = 1 ↔
      page.hasTransparency = true) ∧
    ((startRenderPageWithFlags page flags).bitmap.alpha = 0 ↔
      page.hasTransparency = false) ∧
    (startRenderPageWithFlags page flags).bitmap.width =
      cppTrunc page.width ∧
    (startRenderPageWithFlags page flags).bitmap.height =
      cppTrunc page.height ∧
    (startRenderPageWithColorSchemeAndBackground page flags bg).bitmap =
      (startRenderPageWithFlags page flags).bitmap := by
  cases hpt : page.hasTransparency <;>
    simp [startRenderPageWithFlags,
      startRenderPageWithColorSchemeAndBackground, hpt]

/-- C3: `Continue` in any state other than `InProgress` and `Close` in any
state other than `Done` fail with `InvalidState` and leave the session
unchanged; a successful `Close` hands the buffer back, moves the session to
the closed state, and afterwards neither `Close` nor `Continue` is valid, so
exactly one `Close` succeeds per session. -/
theorem C3_state_machine_misuse (s : Session) (pause : Nat → Bool) :
    (s.state ≠ .inProgress →
      s.continueRender pause = (s, .error .invalidState)) ∧
    (s.state ≠ .done → s.close = (s, .error .invalidState)) ∧
    (s.state = .done →
      s.close.2 = .ok s.buffer ∧
      s.close.1.state = .closed ∧
      s.close.1.close = (s.close.1, .error .invalidState) ∧
      s.close.1.continueRender pause =
        (s.close.1, .error .invalidState)) := by
  refine ⟨?_, ?_, ?_⟩
  · intro h
    simp [Session.continueRender, h]
  · intro h
    simp [Session.close, h]
  · intro h
    refine ⟨by simp [Session.close, h], by simp [Session.close, h], ?_, ?_⟩
    · simp [Session.close, h]
    · simp [Session.close, Session.continueRender, h]

/-- Witness for C3: a fresh session rejects Continue and Close, and a session
in the `Done` state closes once but not twice. -/
theorem C3_state_machine_misuse_witness :
    Session.new.state ≠ .inProgress ∧
    Session.new.continueRender neverPause =
      (Session.new, .error .invalidState) ∧
    Session.new.close = (Session.new, .error .invalidState) ∧
    doneSession.state = .done ∧
    doneSession.close.2 = .ok doneSession.buffer ∧
    doneSession.close.1.state = .closed ∧
    doneSession.close.1.close = (doneSession.close.1, .error .invalidState) ∧
    doneSession.close.1.continueRender neverPause =
      (doneSession.close.1, .error .invalidState) := by
  obtain ⟨h1, h2, h3⟩ := C3_state_machine_misuse doneSession neverPause
  obtain ⟨g1, g2, g3, g4⟩ := h3 rfl
  exact ⟨by decide,
    (C3_state_machine_misuse Session.new neverPause).1 (by decide),
    (C3_state_machine_misuse Session.new neverPause).2.1 (by decide),
    rfl, g1, g2, g3, g4⟩

/-- C8: color substitution replaces the paint color but keeps the object's
blend mode: a highlight-style annotation (multiply) and a plain filled path
(normal) painted under the same scheme emit paints with the same override
color and their native blend modes, and compositing that color over the blue
test background yields different pixels for the two blend modes. -/
theorem C8_blend_mode_preserved (s : ColorScheme) (nc1 nc2 : Color) :
    objectOps false (some s) ⟨.path, true, some nc1, none, .multiply⟩ =
      [.fillOp s.path_fill_color .multiply] ∧
    objectOps false (some s) ⟨.path, false, some nc2, none, .normal⟩ =
      [.fillOp s.path_fill_color .normal] ∧
    eventPixelOver (.fillOp highlightScheme.path_fill_color .multiply)
        (argbToRGB kBlue) ≠
      eventPixelOver (.fillOp highlightScheme.path_fill_color .normal)
        (argbToRGB kBlue) := by
  exact ⟨rfl, rfl, by decide⟩

/-- C1: rendering a page to completion with a controller that never pauses
and with one that pauses at every batch boundary (driving Continue until
`Done`, then drawing the form overlay and closing) hand back identical
final buffers; indeed any pause cadence yields the never-pause buffer. -/
theorem C1_pause_invariance (page : Page) (t : RenderTarget)
    (cfg : RenderConfig) (handle : Option FormLayer) (pause : Nat → Bool)
    (hw : t.width = cppTrunc page.width)
    (hh : t.height = cppTrunc page.height) :
    renderFull page t cfg alwaysPause handle =
      renderFull page t cfg neverPause handle ∧
    renderFull page t cfg pause handle =
      renderFull page t cfg neverPause handle := by
  rw [renderFull_ok page t cfg alwaysPause handle hw hh,
    renderFull_ok page t cfg neverPause handle hw hh,
    renderFull_ok page t cfg pause handle hw hh]
  exact ⟨rfl, rfl⟩

/-- Witness for C1 on a concrete two-object page with a form layer. -/
theorem C1_pause_invariance_witness :
    sampleTarget.width = cppTrunc samplePage.width ∧
    sampleTarget.height = cppTrunc samplePage.height ∧
    renderFull samplePage sampleTarget baseCfg alwaysPause
        (some sampleLayer) =
      renderFull samplePage sampleTarget baseCfg neverPause
        (some sampleLayer) :=
  ⟨by decide, by decide,
    (C1_pause_invariance samplePage sampleTarget baseCfg (some sampleLayer)
      alwaysPause (by decide) (by decide)).1⟩

/-- C9: the buffer operations of a session occur in a fixed order — the
background fill first, then the page objects' paint operations in document
order, then the widget paints of the single form-overlay pass, after which
Close hands the buffer back; the buffer holds exactly one background fill
and exactly the overlay's widget paints. -/
theorem C9_operation_order (page : Page) (t : RenderTarget)
    (cfg : RenderConfig) (pause : Nat → Bool) (handle : Option FormLayer)
    (hw : t.width = cppTrunc page.width)
    (hh : t.height = cppTrunc page.height) :
    renderFull page t cfg pause handle =
      .ok (.background (sessionBackground cfg t) ::
        (contentOps cfg (paintedObjects cfg.renderAnnots page.objects) ++
          overlayOf handle)) ∧
    (renderBuffer page t cfg pause handle).countP isBackgroundEv = 1 ∧
    (renderBuffer page t cfg pause handle).countP isWidgetEv =
      (overlayOf handle).length := by
  refine ⟨renderFull_ok page t cfg pause handle hw hh, ?_, ?_⟩ <;>
    rw [renderBuffer_eq page t cfg pause handle hw hh]
  · simp [List.countP_cons, List.countP_append, contentOps_countP_bg,
      overlayOf_countP_bg, isBackgroundEv]
  · simp [List.countP_cons, List.countP_append, contentOps_countP_widget,
      overlayOf_countP_widget, isWidgetEv]

/-- Witness for C9 on a concrete two-object page with a form layer. -/
theorem C9_operation_order_witness :
    sampleTarget.width = cppTrunc samplePage.width ∧
    sampleTarget.height = cppTrunc samplePage.height ∧
    renderFull samplePage sampleTarget baseCfg alwaysPause
        (some sampleLayer) =
      .ok (.background (sessionBackground baseCfg sampleTarget) ::
        (contentOps baseCfg
          (paintedObjects baseCfg.renderAnnots samplePage.objects) ++
            overlayOf (some sampleLayer))) ∧
    (renderBuffer samplePage sampleTarget baseCfg alwaysPause
      (some sampleLayer)).countP isBackgroundEv = 1 ∧
    (renderBuffer samplePage sampleTarget baseCfg alwaysPause
      (some sampleLayer)).countP isWidgetEv =
        (overlayOf (some sampleLayer)).length := by
  obtain ⟨h1, h2, h3⟩ := C9_operation_order samplePage sampleTarget baseCfg
    alwaysPause (some sampleLayer) (by decide) (by decide)
  exact ⟨by decide, by decide, h1, h2, h3⟩

/-- C2: from a fresh session with a matching target, Start with a
never-pausing controller exhausts the whole object list in one call,
returning `Done` with the complete buffer; if the pause controller signals
pause at any batch boundary the loop can reach, Start returns
`ToBeContinued`; and whenever Start returns `ToBeContinued`, the session is
`InProgress`, the pause controller fired at the preserved cursor, and the
buffer holds exactly the background fill plus the paints of the prefix
recorded by the cursor. -/
theorem C2_start_pause_semantics (s : Session) (page : Page)
    (t : RenderTarget) (cfg : RenderConfig) (pause : Nat → Bool)
    (hs : s.state = .notStarted)
    (hw : t.width = cppTrunc page.width)
    (hh : t.height = cppTrunc page.height) :
    s.start t page cfg neverPause =
      ({ state := .done,
         cursor := (paintedObjects cfg.renderAnnots page.objects).length,
         buffer := .background (sessionBackground cfg t) ::
           contentOps cfg (paintedObjects cfg.renderAnnots page.objects),
         cfg := cfg,
         objs := paintedObjects cfg.renderAnnots page.objects },
       .ok .done) ∧
    ((∃ k, 1 ≤ k ∧
        k ≤ (paintedObjects cfg.renderAnnots page.objects).length ∧
        pause k = true) →
      (s.start t page cfg pause).2 = .ok .toBeContinued) ∧
    ((s.start t page cfg pause).2 = .ok .toBeContinued →
      (s.start t page cfg pause).1.state = .inProgress ∧
      1 ≤ (s.start t page cfg pause).1.cursor ∧
      (s.start t page cfg pause).1.cursor ≤
        (paintedObjects cfg.renderAnnots page.objects).length ∧
      pause (s.start t page cfg pause).1.cursor = true ∧
      (s.start t page cfg pause).1.buffer =
        .background (sessionBackground cfg t) ::
          contentOps cfg
            ((paintedObjects cfg.renderAnnots page.objects).take
              (s.start t page cfg pause).1.cursor)) := by
  refine ⟨?_, ?_, ?_⟩
  · rw [start_eq s t page cfg neverPause hs hw hh]
    simp [startedSession,
      renderStep_noPause cfg (paintedObjects cfg.renderAnnots page.objects) 0]
  · intro ⟨k, h1, hk, hp⟩
    rw [start_eq s t page cfg pause hs hw hh]
    simp only
    rw [renderStep_pause_fires cfg pause
      (paintedObjects cfg.renderAnnots page.objects) 0
      ⟨k, h1, hk, by simpa using hp⟩]
  · intro htbc
    rw [start_eq s t page cfg pause hs hw hh] at htbc ⊢
    obtain ⟨k, hk, he, hc, hst⟩ :=
      renderStep_char cfg pause (paintedObjects cfg.renderAnnots page.objects)
        0
    have htbc' : (renderStep cfg pause
        (paintedObjects cfg.renderAnnots page.objects) 0).status =
        .toBeContinued := by
      simpa using htbc
    rcases hst with ⟨h1, _⟩ | ⟨h1, h2, h3⟩
    · rw [h1] at htbc'
      cases htbc'
    · refine ⟨?_, ?_, ?_, ?_, ?_⟩
      · simp [startedSession, h1]
      · simp only [startedSession]
        rw [hc]
        omega
      · simp only [startedSession]
        rw [hc]
        omega
      · simp only [startedSession]
        rw [hc]
        simpa using h3
      · simp only [startedSession]
        rw [hc, he]
        simp

/-- Witness for C2: on the concrete two-object page, the never-pause Start
completes in one call, the always-pause controller (which fires at the first
batch boundary) makes Start return `ToBeContinued`, and that Start is left
in progress with the pause fired at the preserved cursor. -/
theorem C2_start_pause_semantics_witness :
    Session.new.state = .notStarted ∧
    sampleTarget.width = cppTrunc samplePage.width ∧
    sampleTarget.height = cppTrunc samplePage.height ∧
    Session.new.start sampleTarget samplePage baseCfg neverPause =
      ({ state := .done,
         cursor :=
           (paintedObjects baseCfg.renderAnnots samplePage.objects).length,
         buffer := .background (sessionBackground baseCfg sampleTarget) ::
           contentOps baseCfg
             (paintedObjects baseCfg.renderAnnots samplePage.objects),
         cfg := baseCfg,
         objs := paintedObjects baseCfg.renderAnnots samplePage.objects },
       .ok .done) ∧
    (Session.new.start sampleTarget samplePage baseCfg alwaysPause).2 =
      .ok .toBeContinued ∧
    (Session.new.start sampleTarget samplePage baseCfg
      alwaysPause).1.state = .inProgress ∧
    1 ≤ (Session.new.start sampleTarget samplePage baseCfg
      alwaysPause).1.cursor ∧
    alwaysPause (Session.new.start sampleTarget samplePage baseCfg
      alwaysPause).1.cursor = true := by
  obtain ⟨h1, h2, h3⟩ := C2_start_pause_semantics Session.new samplePage
    sampleTarget baseCfg alwaysPause rfl (by decide) (by decide)
  have htbc := h2 ⟨1, by decide, by decide, rfl⟩
  obtain ⟨g1, g2, _, g4, _⟩ := h3 htbc
  exact ⟨rfl, by decide, by decide, h1, htbc, g1, g2, g4⟩

/-- C4: the background fill happens exactly once per session, at Start,
before any content or overlay paint: the buffer handed back begins with the
background event and contains exactly one; with no explicit background
override, an alpha target starts fully transparent (0x00000000) and a
non-alpha target opaque white (0xFFFFFFFF). -/
theorem C4_background_fill_once (page : Page) (t : RenderTarget)
    (cfg : RenderConfig) (pause : Nat → Bool) (handle : Option FormLayer)
    (hw : t.width = cppTrunc page.width)
    (hh : t.height = cppTrunc page.height)
    (hbg : cfg.background = none) :
    (renderBuffer page t cfg pause handle).head? =
      some (.background
        (if t.hasAlpha then 0x00000000 else 0xFFFFFFFF)) ∧
    (renderBuffer page t cfg pause handle).countP isBackgroundEv = 1 ∧
    renderFull page t cfg pause handle =
      .ok (renderBuffer page t cfg pause handle) := by
  refine ⟨?_, ?_, ?_⟩
  · rw [renderBuffer_eq page t cfg pause handle hw hh]
    simp [sessionBackground, hbg, defaultBackground]
  · rw [renderBuffer_eq page t cfg pause handle hw hh]
    simp [List.countP_cons, List.countP_append, contentOps_countP_bg,
      overlayOf_countP_bg, isBackgroundEv]
  · rw [renderFull_ok page t cfg pause handle hw hh,
      renderBuffer_eq page t cfg pause handle hw hh]

/-- Witness for C4 on a non-alpha page and on an alpha page. -/
theorem C4_background_fill_once_witness :
    baseCfg.background = none ∧
    (renderBuffer samplePage sampleTarget baseCfg alwaysPause none).head? =
      some (.background 0xFFFFFFFF) ∧
    (renderBuffer samplePage sampleTarget baseCfg alwaysPause
      none).countP isBackgroundEv = 1 ∧
    (renderBuffer alphaPage alphaTarget baseCfg alwaysPause none).head? =
      some (.background 0x00000000) ∧
    (renderBuffer alphaPage alphaTarget baseCfg alwaysPause
      none).countP isBackgroundEv = 1 := by
  obtain ⟨w1, w2, _⟩ := C4_background_fill_once samplePage sampleTarget
    baseCfg alwaysPause none (by decide) (by decide) rfl
  obtain ⟨a1, a2, _⟩ := C4_background_fill_once alphaPage alphaTarget
    baseCfg alwaysPause none (by decide) (by decide) rfl
  exact ⟨rfl, w1, w2, a1, a2⟩

/-- C5: form-widget appearances drawn by the overlay pass are exempt from
the forced color scheme: the widget paints of the final buffer are exactly
the layer's native-color appearances, identical between a render under a
scheme and a render with no scheme at all. -/
theorem C5_form_overlay_scheme_exempt (page : Page) (t : RenderTarget)
    (cfg : RenderConfig) (pause1 pause2 : Nat → Bool)
    (handle : Option FormLayer)
    (hw : t.width = cppTrunc page.width)
    (hh : t.height = cppTrunc page.height) :
    (renderBuffer page t cfg pause1 handle).filter isWidgetEv =
      overlayOf handle ∧
    (renderBuffer page t { cfg with scheme := none } pause2
      handle).filter isWidgetEv = overlayOf handle := by
  constructor
  · rw [renderBuffer_eq page t cfg pause1 handle hw hh]
    simp [List.filter_append, contentOps_no_widget, overlayOf_filter_widget,
      isWidgetEv]
  · rw [renderBuffer_eq page t { cfg with scheme := none } pause2 handle
      hw hh]
    simp [List.filter_append, contentOps_no_widget, overlayOf_filter_widget,
      isWidgetEv]

/-- Witness for C5 on a concrete page rendered under `rectScheme` and with
no scheme. -/
theorem C5_form_overlay_scheme_exempt_witness :
    (renderBuffer samplePage sampleTarget schemeCfg alwaysPause
      (some sampleLayer)).filter isWidgetEv = overlayOf (some sampleLayer) ∧
    (renderBuffer samplePage sampleTarget { schemeCfg with scheme := none }
      neverPause (some sampleLayer)).filter isWidgetEv =
        overlayOf (some sampleLayer) :=
  C5_form_overlay_scheme_exempt samplePage sampleTarget schemeCfg
    alwaysPause neverPause (some sampleLayer) (by decide) (by decide)

/-- C6: on a page containing only text, rendering with scheme
{path-fill = black, path-stroke = white, text-fill = white,
text-stroke = white} paints every fill with the text-fill override (white)
and not with the path-fill override (black), and the outcome differs from
the same page rendered with no scheme. -/
theorem C6_text_fill_role (page : Page) (t : RenderTarget) (ra : Bool)
    (bgov : Option Color) (pause1 pause2 : Nat → Bool)
    (handle : Option FormLayer)
    (hw : t.width = cppTrunc page.width)
    (hh : t.height = cppTrunc page.height)
    (htext : ∀ o ∈ page.objects, o.kind = .text ∧ o.annot = false)
    (hex : ∃ o ∈ page.objects, ∃ c, o.fillColor = some c ∧ c ≠ kWhite) :
    fillsUseColor kWhite
      (renderBuffer page t ⟨ra, false, some textScheme, bgov⟩ pause1
        handle) = true ∧
    fillsUseColor kBlack
      (renderBuffer page t ⟨ra, false, some textScheme, bgov⟩ pause1
        handle) = false ∧
    renderBuffer page t ⟨ra, false, some textScheme, bgov⟩ pause1 handle ≠
      renderBuffer page t ⟨ra, false, none, bgov⟩ pause2 handle := by
  have hpaintS : paintedObjects
      (RenderConfig.mk ra false (some textScheme) bgov).renderAnnots
      page.objects = page.objects :=
    paintedObjects_of_no_annot _ _ (fun o ho => (htext o ho).2)
  have hpaintN : paintedObjects
      (RenderConfig.mk ra false none bgov).renderAnnots
      page.objects = page.objects :=
    paintedObjects_of_no_annot _ _ (fun o ho => (htext o ho).2)
  have factA : ∀ c b, RenderEvent.fillOp c b ∈
      renderBuffer page t ⟨ra, false, some textScheme, bgov⟩ pause1 handle →
      c = kWhite := by
    intro c b hmem
    rw [mem_buffer_fill page t _ pause1 handle hw hh, hpaintS] at hmem
    obtain ⟨o, ho, hc, _⟩ :=
      contentOps_fill_color_scheme _ textScheme page.objects rfl rfl
        _ hmem c b rfl
    rw [hc, (htext o ho).1]
    rfl
  refine ⟨(fillsUseColor_iff kWhite _).mpr factA, ?_, ?_⟩
  · obtain ⟨o, ho, c, hfc, _⟩ := hex
    have hmem : RenderEvent.fillOp kWhite o.blend ∈
        renderBuffer page t ⟨ra, false, some textScheme, bgov⟩ pause1
          handle := by
      rw [mem_buffer_fill page t _ pause1 handle hw hh, hpaintS]
      have := contentOps_fill_mem_scheme
        (RenderConfig.mk ra false (some textScheme) bgov) textScheme
        page.objects rfl rfl ho hfc
      rwa [(htext o ho).1] at this
    cases hfb : fillsUseColor kBlack
        (renderBuffer page t ⟨ra, false, some textScheme, bgov⟩ pause1
          handle) with
    | false => rfl
    | true =>
        have := (fillsUseColor_iff kBlack _).mp hfb kWhite o.blend hmem
        exact absurd this (by decide)
  · intro heq
    obtain ⟨o, ho, c, hfc, hcne⟩ := hex
    have hmemN : RenderEvent.fillOp c o.blend ∈
        renderBuffer page t ⟨ra, false, none, bgov⟩ pause2 handle := by
      rw [mem_buffer_fill page t _ pause2 handle hw hh, hpaintN]
      exact contentOps_fill_mem_noScheme _ page.objects rfl ho hfc
    rw [← heq] at hmemN
    exact hcne (factA c o.blend hmemN)

/-- Witness for C6 on a concrete one-text-object page. -/
theorem C6_text_fill_role_witness :
    (∀ o ∈ sampleTextPage.objects, o.kind = .text ∧ o.annot = false) ∧
    fillsUseColor kWhite
      (renderBuffer sampleTextPage sampleTextTarget
        ⟨true, false, some textScheme, none⟩ alwaysPause none) = true ∧
    fillsUseColor kBlack
      (renderBuffer sampleTextPage sampleTextTarget
        ⟨true, false, some textScheme, none⟩ alwaysPause none) = false ∧
    renderBuffer sampleTextPage sampleTextTarget
        ⟨true, false, some textScheme, none⟩ alwaysPause none ≠
      renderBuffer sampleTextPage sampleTextTarget
        ⟨true, false, none, none⟩ neverPause none := by
  obtain ⟨h1, h2, h3⟩ := C6_text_fill_role sampleTextPage sampleTextTarget
    true none alwaysPause neverPause none (by decide) (by decide)
    (by decide) ⟨sampleText, by decide, kBlack, rfl, by decide⟩
  exact ⟨by decide, h1, h2, h3⟩

/-- C7: with a forced scheme and the convert-fill-to-stroke flag, every fill
paint is rewritten to a stroke-only paint in the scheme's stroke color for
the object's role and no fill paint reaches the buffer — a page of solid
filled rectangles yields exactly one stroke paint per rectangle, all in the
path-stroke override color, and the outcome differs from the identical
configuration with the flag off. -/
theorem C7_convert_fill_to_stroke (page : Page) (t : RenderTarget)
    (ra : Bool) (bgov : Option Color) (sch : ColorScheme)
    (pause1 pause2 : Nat → Bool) (handle : Option FormLayer)
    (hw : t.width = cppTrunc page.width)
    (hh : t.height = cppTrunc page.height)
    (hobj : ∀ o ∈ page.objects, o.kind = .path ∧ o.annot = false ∧
      (∃ c, o.fillColor = some c) ∧ o.strokeColor = none)
    (hne : page.objects ≠ []) :
    (renderBuffer page t ⟨ra, true, some sch, bgov⟩ pause1
      handle).countP isFillEv = 0 ∧
    strokesUseColor sch.path_stroke_color
      (renderBuffer page t ⟨ra, true, some sch, bgov⟩ pause1 handle) =
        true ∧
    (renderBuffer page t ⟨ra, true, some sch, bgov⟩ pause1
      handle).countP isStrokeEv = page.objects.length ∧
    renderBuffer page t ⟨ra, true, some sch, bgov⟩ pause1 handle ≠
      renderBuffer page t ⟨ra, false, some sch, bgov⟩ pause2 handle := by
  have hpaintOn : paintedObjects
      (RenderConfig.mk ra true (some sch) bgov).renderAnnots
      page.objects = page.objects :=
    paintedObjects_of_no_annot _ _ (fun o ho => (hobj o ho).2.1)
  have hpaintOff : paintedObjects
      (RenderConfig.mk ra false (some sch) bgov).renderAnnots
      page.objects = page.objects :=
    paintedObjects_of_no_annot _ _ (fun o ho => (hobj o ho).2.1)
  have hcountOn : (renderBuffer page t ⟨ra, true, some sch, bgov⟩ pause1
      handle).countP isFillEv = 0 := by
    rw [renderBuffer_eq page t _ pause1 handle hw hh, hpaintOn]
    simp [List.countP_cons, List.countP_append,
      contentOps_countP_fill_on ⟨ra, true, some sch, bgov⟩ sch page.objects rfl
        rfl,
      overlayOf_countP_fill, isFillEv]
  refine ⟨hcountOn, ?_, ?_, ?_⟩
  · refine (strokesUseColor_iff _ _).mpr ?_
    intro c b hmem
    rw [mem_buffer_stroke page t _ pause1 handle hw hh, hpaintOn] at hmem
    exact contentOps_stroke_color_on _ sch page.objects rfl rfl
      (fun o ho => (hobj o ho).1) _ hmem c b rfl
  · rw [renderBuffer_eq page t _ pause1 handle hw hh, hpaintOn]
    simp [List.countP_cons, List.countP_append,
      contentOps_countP_stroke_on ⟨ra, true, some sch, bgov⟩ sch page.objects
        rfl rfl (fun o ho => (hobj o ho).2.2),
      overlayOf_countP_stroke, isStrokeEv]
  · intro heq
    have hcountOff : (renderBuffer page t ⟨ra, false, some sch, bgov⟩
        pause2 handle).countP isFillEv = page.objects.length := by
      rw [renderBuffer_eq page t _ pause2 handle hw hh, hpaintOff]
      simp [List.countP_cons, List.countP_append,
        contentOps_countP_fill_off ⟨ra, false, some sch, bgov⟩ sch page.objects
          rfl rfl (fun o ho => (hobj o ho).2.2),
        overlayOf_countP_fill, isFillEv]
    rw [heq, hcountOff] at hcountOn
    exact hne (List.length_eq_zero.mp hcountOn)

/-- Witness for C7 on the concrete two-rectangle page under `rectScheme`. -/
theorem C7_convert_fill_to_stroke_witness :
    (∀ o ∈ samplePage.objects, o.kind = .path ∧ o.annot = false ∧
      (∃ c, o.fillColor = some c) ∧ o.strokeColor = none) ∧
    (renderBuffer samplePage sampleTarget
      ⟨true, true, some rectScheme, none⟩ alwaysPause none).countP
        isFillEv = 0 ∧
    strokesUseColor rectScheme.path_stroke_color
      (renderBuffer samplePage sampleTarget
        ⟨true, true, some rectScheme, none⟩ alwaysPause none) = true ∧
    (renderBuffer samplePage sampleTarget
      ⟨true, true, some rectScheme, none⟩ alwaysPause none).countP
        isStrokeEv = samplePage.objects.length ∧
    renderBuffer samplePage sampleTarget
        ⟨true, true, some rectScheme, none⟩ alwaysPause none ≠
      renderBuffer samplePage sampleTarget
        ⟨true, false, some rectScheme, none⟩ neverPause none := by
  obtain ⟨h1, h2, h3, h4⟩ := C7_convert_fill_to_stroke samplePage
    sampleTarget true none rectScheme alwaysPause neverPause none
    (by decide) (by decide)
    (by refine fun o ho => ⟨?_, ?_, ?_, ?_⟩ <;> fin_cases ho <;>
      first
        | decide
        | exact ⟨kRed, rfl⟩
        | exact ⟨kBlue, rfl⟩)
    (by decide)
  exact ⟨by
    refine fun o ho => ⟨?_, ?_, ?_, ?_⟩ <;> fin_cases ho <;>
      first
        | decide
        | exact ⟨kRed, rfl⟩
        | exact ⟨kBlue, rfl⟩, h1, h2, h3, h4⟩

end PdfProgressive
